import Mathlib

/-!
Verification of the ColorLab color-conversion core (`models.py` and the
synchronization controller in `main.py`).  Python floats are modelled by
exact rationals (`ℚ`); Python's `%` on floats, its banker's rounding
`round`, and its `int(·, 16)` hex parsing are modelled explicitly below.
-/

namespace ColorLab

/-- `models.clamp01`: the explicit if-chain from the source. -/
def clamp01 (x : ℚ) : ℚ :=
  if x < 0 then 0 else if x > 1 then 1 else x

/-- Python `max(lo, min(hi, x))`, the clamping idiom used throughout `models.py`. -/
def clampQ (lo hi x : ℚ) : ℚ := max lo (min hi x)

/-- Python's float modulus `x % m` for `m > 0`: `x - m*floor(x/m) = m * fract (x/m)`. -/
def pymod (x m : ℚ) : ℚ := m * Int.fract (x / m)

/-- Python 3 `round` on a real value: round half to even. -/
def pyRound (q : ℚ) : ℤ :=
  if q - ⌊q⌋ < 1/2 then ⌊q⌋
  else if 1/2 < q - ⌊q⌋ then ⌊q⌋ + 1
  else if 2 ∣ ⌊q⌋ then ⌊q⌋ else ⌊q⌋ + 1

/-- Python `round(q, 2)` in real semantics: round `q*100` half to even, divide back. -/
def pyRound2 (q : ℚ) : ℚ := (pyRound (q * 100) : ℚ) / 100

/-- `models.srgb_to_hls`: normalized rgb in [0..1] to (H°, L%, S%).
Mirrors the source: no input clamping; achromatic branch when `maxc == minc`;
saturation branch on `l <= 0.5`; hue branch on which channel attains the max;
`(h * 60.0) % 360.0` at the end. -/
def srgb_to_hls (rgb : ℚ × ℚ × ℚ) : ℚ × ℚ × ℚ :=
  let r := rgb.1
  let g := rgb.2.1
  let b := rgb.2.2
  let maxc := max r (max g b)
  let minc := min r (min g b)
  let l := (maxc + minc) / 2
  if maxc = minc then
    (0, l * 100, 0)
  else
    let diff := maxc - minc
    let s := if l ≤ 1/2 then diff / (maxc + minc) else diff / (2 - maxc - minc)
    let h0 := if maxc = r then (g - b) / diff
              else if maxc = g then 2 + (b - r) / diff
              else 4 + (r - g) / diff
    (pymod (h0 * 60) 360, l * 100, s * 100)

/-- The inner `hue_to_rgb(m1, m2, h)` helper of `models.hls_to_srgb`. -/
def hue_to_rgb (m1 m2 h : ℚ) : ℚ :=
  let h1 := if h < 0 then h + 1 else h
  let h2 := if h1 > 1 then h1 - 1 else h1
  if h2 < 1/6 then m1 + (m2 - m1) * 6 * h2
  else if h2 < 1/2 then m2
  else if h2 < 2/3 then m1 + (m2 - m1) * (2/3 - h2) * 6
  else m1

/-- `models.hls_to_srgb`: (H°, L%, S%) to normalized rgb.
Hue is reduced `% 360` then divided by 360; L and S are clamped to [0,100]
and divided by 100; achromatic branch when `s == 0`. -/
def hls_to_srgb (hls : ℚ × ℚ × ℚ) : ℚ × ℚ × ℚ :=
  let h := pymod hls.1 360 / 360
  let l := clampQ 0 100 hls.2.1 / 100
  let s := clampQ 0 100 hls.2.2 / 100
  if s = 0 then (l, l, l)
  else
    let m2 := if l ≤ 1/2 then l * (1 + s) else l + s - l * s
    let m1 := 2 * l - m2
    (hue_to_rgb m1 m2 (h + 1/3), hue_to_rgb m1 m2 h, hue_to_rgb m1 m2 (h - 1/3))

/-- `models.srgb_to_cmyk`: rgb normalized to (C%, M%, Y%, K%); inputs clamped,
`k >= 1 - 1e-12` short-circuits to pure black `(0,0,0,100)`. -/
def srgb_to_cmyk (rgb : ℚ × ℚ × ℚ) : ℚ × ℚ × ℚ × ℚ :=
  let r := clampQ 0 1 rgb.1
  let g := clampQ 0 1 rgb.2.1
  let b := clampQ 0 1 rgb.2.2
  let k := 1 - max r (max g b)
  if 1 - 1/1000000000000 ≤ k then (0, 0, 0, 100)
  else
    let c := (1 - r - k) / (1 - k)
    let m := (1 - g - k) / (1 - k)
    let y := (1 - b - k) / (1 - k)
    (c * 100, m * 100, y * 100, k * 100)

/-- `models.cmyk_to_srgb`: (C%,M%,Y%,K%) to rgb normalized, inputs clamped to
[0,100], result clamped to [0,1]. -/
def cmyk_to_srgb (cmyk : ℚ × ℚ × ℚ × ℚ) : ℚ × ℚ × ℚ :=
  let c := clampQ 0 100 cmyk.1 / 100
  let m := clampQ 0 100 cmyk.2.1 / 100
  let y := clampQ 0 100 cmyk.2.2.1 / 100
  let k := clampQ 0 100 cmyk.2.2.2 / 100
  let r := (1 - c) * (1 - k)
  let g := (1 - m) * (1 - k)
  let b := (1 - y) * (1 - k)
  (clampQ 0 1 r, clampQ 0 1 g, clampQ 0 1 b)

/-- ASCII whitespace as recognized by Python `str.strip` and `int`. -/
def isWs (c : Char) : Bool :=
  c.toNat = 32 || c.toNat = 9 || c.toNat = 10 || c.toNat = 13 || c.toNat = 11 || c.toNat = 12

/-- Python `str.strip()` on a character list (ASCII whitespace). -/
def stripWs (l : List Char) : List Char :=
  ((l.dropWhile isWs).reverse.dropWhile isWs).reverse

/-- Value of one hexadecimal digit (`0-9`, `a-f`, `A-F`). -/
def hexVal (c : Char) : Option ℕ :=
  if '0' ≤ c ∧ c ≤ '9' then some (c.toNat - 48)
  else if 'a' ≤ c ∧ c ≤ 'f' then some (c.toNat - 87)
  else if 'A' ≤ c ∧ c ≤ 'F' then some (c.toNat - 55)
  else none

/-- Python `int(s, 16)` restricted to the 2-character ASCII slices taken by
`hex_to_srgb`: either two hex digits, or a sign or whitespace character next to
a single hex digit (Python's `int` tolerates one sign and surrounding
whitespace around the digits). -/
def pyIntHex2 (c1 c2 : Char) : Option ℤ :=
  match hexVal c1, hexVal c2 with
  | some v1, some v2 => some (16 * v1 + v2)
  | some v1, none => if isWs c2 then some (v1 : ℤ) else none
  | none, some v2 =>
      if isWs c1 then some (v2 : ℤ)
      else if c1 = '+' then some (v2 : ℤ)
      else if c1 = '-' then some (-(v2 : ℤ))
      else none
  | none, none => none

/-- `models.hex_to_srgb`: strip, drop one leading `#`, require exactly 6
remaining characters, parse the three 2-character slices with `int(·, 16)`,
divide by 255.  `none` models the raised `ValueError`. -/
def hex_to_srgb (input : List Char) : Option (ℚ × ℚ × ℚ) :=
  let s0 := stripWs input
  let s := match s0 with
    | '#' :: rest => rest
    | _ => s0
  match s with
  | [a, b, c, d, e, f] =>
    match pyIntHex2 a b, pyIntHex2 c d, pyIntHex2 e f with
    | some r, some g, some bl => some ((r : ℚ) / 255, (g : ℚ) / 255, (bl : ℚ) / 255)
    | _, _, _ => none
  | _ => none

/-- Uppercase hexadecimal digit of `n < 16`. -/
def hexUpper (n : ℕ) : Char :=
  if n < 10 then Char.ofNat (48 + n) else Char.ofNat (55 + n)

/-- Two-digit uppercase hex representation of a byte, as in `"{:02X}"`. -/
def hexByte (n : ℕ) : List Char := [hexUpper (n / 16), hexUpper (n % 16)]

/-- `models.srgb_to_hex`: `"#{:02X}{:02X}{:02X}"` of `int(round(clamp01(ch)*255))`.
The clamp keeps each rounded byte in 0..255, where the two-digit format is exact. -/
def srgb_to_hex (rgb : ℚ × ℚ × ℚ) : List Char :=
  '#' :: (hexByte (pyRound (clamp01 rgb.1 * 255)).toNat
    ++ hexByte (pyRound (clamp01 rgb.2.1 * 255)).toNat
    ++ hexByte (pyRound (clamp01 rgb.2.2 * 255)).toNat)

/-- `models.rgb_norm_to_ui`: normalized [0..1] to 0..255 integers. -/
def rgb_norm_to_ui (rgb : ℚ × ℚ × ℚ) : ℤ × ℤ × ℤ :=
  (pyRound (clamp01 rgb.1 * 255), pyRound (clamp01 rgb.2.1 * 255),
    pyRound (clamp01 rgb.2.2 * 255))

/-- `models.rgb_ui_to_norm`: 0..255 integers to normalized [0..1]. -/
def rgb_ui_to_norm (rgb_ui : ℤ × ℤ × ℤ) : ℚ × ℚ × ℚ :=
  ((max 0 (min 255 rgb_ui.1) : ℤ) / 255, (max 0 (min 255 rgb_ui.2.1) : ℤ) / 255,
    (max 0 (min 255 rgb_ui.2.2) : ℤ) / 255)

/-- `models.convert_from_srgb`: UI values for a panel; `none` models the
`ValueError` on an unknown panel name. -/
def convert_from_srgb (panel_name : String) (rgb_norm : ℚ × ℚ × ℚ) : Option (List ℚ) :=
  if panel_name = "RGB" then
    some [((rgb_norm_to_ui rgb_norm).1 : ℚ), ((rgb_norm_to_ui rgb_norm).2.1 : ℚ),
      ((rgb_norm_to_ui rgb_norm).2.2 : ℚ)]
  else if panel_name = "CMYK" then
    some [pyRound2 (srgb_to_cmyk rgb_norm).1, pyRound2 (srgb_to_cmyk rgb_norm).2.1,
      pyRound2 (srgb_to_cmyk rgb_norm).2.2.1, pyRound2 (srgb_to_cmyk rgb_norm).2.2.2]
  else if panel_name = "HLS" then
    some [pyRound2 (srgb_to_hls rgb_norm).1, pyRound2 (srgb_to_hls rgb_norm).2.1,
      pyRound2 (srgb_to_hls rgb_norm).2.2]
  else none

/-- `models.convert_to_srgb`: `(rgb_norm, clipped_flag)` from panel UI values.
`none` models the `ValueError` on an unknown panel name and the `IndexError`
on a too-short value list; extra values are ignored, as in Python. -/
def convert_to_srgb (panel_name : String) (values : List ℚ) : Option ((ℚ × ℚ × ℚ) × Bool) :=
  if panel_name = "RGB" then
    match values with
    | v0 :: v1 :: v2 :: _ =>
      some (((max 0 (min 255 (pyRound v0)) : ℤ) / 255,
             ((max 0 (min 255 (pyRound v1)) : ℤ) : ℚ) / 255,
             ((max 0 (min 255 (pyRound v2)) : ℤ) : ℚ) / 255), false)
    | _ => none
  else if panel_name = "CMYK" then
    match values with
    | c :: m :: y :: k :: _ => some (cmyk_to_srgb (c, m, y, k), false)
    | _ => none
  else if panel_name = "HLS" then
    match values with
    | h :: l :: s :: _ =>
      let rgb := hls_to_srgb (h, l, s)
      let cr := clamp01 rgb.1
      let cg := clamp01 rgb.2.1
      let cb := clamp01 rgb.2.2
      some ((cr, cg, cb), if cr = rgb.1 ∧ cg = rgb.2.1 ∧ cb = rgb.2.2 then false else true)
    | _ => none
  else none

/-! ### The synchronization controller of `main.py` (`ColorLabApp`)

Panels are the three `ModelPanel` widgets; each holds a current model (the
combo box offers exactly RGB, CMYK, HLS) and its channel values. -/

/-- A panel's current model: the combo box in `ui_controls.ModelPanel` offers
exactly these three entries of `MODEL_SPECS`. -/
inductive Model
  | RGB
  | CMYK
  | HLS
deriving DecidableEq

/-- The model identifier string handed to `convert_to_srgb`/`convert_from_srgb`. -/
def Model.pname : Model → String
  | .RGB => "RGB"
  | .CMYK => "CMYK"
  | .HLS => "HLS"

/-- `ui_controls.ModelPanel`: current model plus current channel values. -/
structure Panel where
  model : Model
  vals : List ℚ
deriving DecidableEq

/-- Identity of the three panel widgets of `ColorLabApp` (`panel_cmyk`,
`panel_rgb`, `panel_hls`); a panel keeps its identity when its model switches. -/
inductive PanelId
  | cmyk
  | rgb
  | hls
deriving DecidableEq

/-- The state of `ColorLabApp` relevant to the synchronization policy:
the canonical color `self.rgb`, the three panels, and whether the clipping
warning is displayed. -/
structure AppState where
  rgb : ℚ × ℚ × ℚ
  panelCmyk : Panel
  panelRgb : Panel
  panelHls : Panel
  clipped : Bool
deriving DecidableEq

/-- The successful branch of `convert_from_srgb` for each of the three valid
model names (see `convert_from_srgb_pname` below). -/
def convertFrom (m : Model) (rgb_norm : ℚ × ℚ × ℚ) : List ℚ :=
  match m with
  | .RGB => [((rgb_norm_to_ui rgb_norm).1 : ℚ), ((rgb_norm_to_ui rgb_norm).2.1 : ℚ),
      ((rgb_norm_to_ui rgb_norm).2.2 : ℚ)]
  | .CMYK => [pyRound2 (srgb_to_cmyk rgb_norm).1, pyRound2 (srgb_to_cmyk rgb_norm).2.1,
      pyRound2 (srgb_to_cmyk rgb_norm).2.2.1, pyRound2 (srgb_to_cmyk rgb_norm).2.2.2]
  | .HLS => [pyRound2 (srgb_to_hls rgb_norm).1, pyRound2 (srgb_to_hls rgb_norm).2.1,
      pyRound2 (srgb_to_hls rgb_norm).2.2]

/-- Project a panel out of the application state by identity. -/
def getPanel (st : AppState) : PanelId → Panel
  | .cmyk => st.panelCmyk
  | .rgb => st.panelRgb
  | .hls => st.panelHls

/-- `ModelPanel.set_from_srgb`: refresh the panel's values from a canonical
color (emitting no change signals). -/
def set_from_srgb (p : Panel) (rgb_norm : ℚ × ℚ × ℚ) : Panel :=
  { p with vals := convertFrom p.model rgb_norm }

/-- `ColorLabApp._apply_rgb`: clamp the candidate into [0,1], store it as the
canonical color, refresh every panel other than the source, and display the
clipped flag. -/
def apply_rgb (st : AppState) (rgb_norm : ℚ × ℚ × ℚ) (source : Option PanelId)
    (clipped : Bool) : AppState :=
  let c := (clamp01 rgb_norm.1, clamp01 rgb_norm.2.1, clamp01 rgb_norm.2.2)
  let st1 : AppState := { st with rgb := c, clipped := clipped }
  let st2 := if source = some PanelId.cmyk then st1
    else { st1 with panelCmyk := set_from_srgb st1.panelCmyk c }
  let st3 := if source = some PanelId.rgb then st2
    else { st2 with panelRgb := set_from_srgb st2.panelRgb c }
  if source = some PanelId.hls then st3
  else { st3 with panelHls := set_from_srgb st3.panelHls c }

/-- `ColorLabApp._panel_changed`: convert the source panel's values and apply.
If the conversion raises (unknown model, missing values), no state changes. -/
def panel_changed (st : AppState) (pid : PanelId) : AppState :=
  match convert_to_srgb (getPanel st pid).model.pname (getPanel st pid).vals with
  | some (rgbn, clip) => apply_rgb st rgbn (some pid) clip
  | none => st

/-- `ColorLabApp._hex_entered`: parse the stripped text; on `ValueError` only a
status message is shown and no state changes; on success apply with
`source=None, clipped=False`. -/
def hex_entered (st : AppState) (txt : List Char) : AppState :=
  match hex_to_srgb (stripWs txt) with
  | some rgb => apply_rgb st rgb none false
  | none => st

/-- Overwrite one panel's channel values (a user edit of its controls). -/
def setPanelVals (st : AppState) (pid : PanelId) (vals : List ℚ) : AppState :=
  match pid with
  | .cmyk => { st with panelCmyk := { st.panelCmyk with vals := vals } }
  | .rgb => { st with panelRgb := { st.panelRgb with vals := vals } }
  | .hls => { st with panelHls := { st.panelHls with vals := vals } }

/-- A complete panel edit: the user sets the panel's values, which fires
`anyValueChanged` and runs `_panel_changed` on that panel. -/
def editPanel (st : AppState) (pid : PanelId) (vals : List ℚ) : AppState :=
  panel_changed (setPanelVals st pid vals) pid

/-! ### Elementary lemmas about the clamping and modulus helpers -/

theorem clampQ_of_mem {lo hi x : ℚ} (h1 : lo ≤ x) (h2 : x ≤ hi) : clampQ lo hi x = x := by
  unfold clampQ
  rw [min_eq_right h2, max_eq_right h1]

theorem clampQ_le {lo hi x : ℚ} (h : lo ≤ hi) : clampQ lo hi x ≤ hi := by
  unfold clampQ
  exact max_le h (min_le_left _ _)

theorem le_clampQ {lo hi x : ℚ} : lo ≤ clampQ lo hi x := le_max_left _ _

theorem clamp01_of_mem {x : ℚ} (h1 : 0 ≤ x) (h2 : x ≤ 1) : clamp01 x = x := by
  unfold clamp01
  rw [if_neg (by linarith), if_neg (by linarith)]

theorem clamp01_nonneg (x : ℚ) : 0 ≤ clamp01 x := by
  unfold clamp01
  split_ifs <;> linarith

theorem clamp01_le_one (x : ℚ) : clamp01 x ≤ 1 := by
  unfold clamp01
  split_ifs <;> linarith

theorem pymod_nonneg (x : ℚ) : 0 ≤ pymod x 360 := by
  unfold pymod
  have := Int.fract_nonneg (x / 360)
  linarith

theorem pymod_lt_360 (x : ℚ) : pymod x 360 < 360 := by
  unfold pymod
  have := Int.fract_lt_one (x / 360)
  linarith

theorem pymod_eq_self {x : ℚ} (h0 : 0 ≤ x) (h1 : x < 360) : pymod x 360 = x := by
  unfold pymod
  rw [Int.fract_eq_self.mpr ⟨by linarith, by linarith⟩]
  ring

theorem pymod_eq_add_360 {x : ℚ} (h0 : -360 ≤ x) (h1 : x < 0) : pymod x 360 = x + 360 := by
  unfold pymod
  have h2 : Int.fract (x / 360 + (1 : ℤ)) = Int.fract (x / 360) := Int.fract_add_int _ _
  have h3 : Int.fract (x / 360 + (1 : ℤ)) = x / 360 + 1 := by
    apply Int.fract_eq_self.mpr
    constructor
    · push_cast
      linarith
    · push_cast
      linarith
  rw [← h2, h3]
  ring

theorem pyRound_intCast (n : ℤ) : pyRound (n : ℚ) = n := by
  unfold pyRound
  rw [Int.floor_intCast]
  norm_num

theorem pyRound_nonneg {x : ℚ} (h : 0 ≤ x) : 0 ≤ pyRound x := by
  have h0 : 0 ≤ ⌊x⌋ := Int.floor_nonneg.mpr h
  unfold pyRound
  split_ifs <;> omega

theorem pyRound_le {x : ℚ} {n : ℤ} (h : x ≤ (n : ℚ)) : pyRound x ≤ n := by
  have hfn : ⌊x⌋ ≤ n := by
    have := Int.floor_mono h
    simpa using this
  have hfl : (⌊x⌋ : ℚ) ≤ x := Int.floor_le x
  unfold pyRound
  split_ifs with h1 h2 h3
  · exact hfn
  · have hq : (⌊x⌋ : ℚ) < (n : ℚ) := by linarith
    have : ⌊x⌋ < n := by exact_mod_cast hq
    omega
  · exact hfn
  · have hr : x - ⌊x⌋ = 1/2 := le_antisymm (not_lt.mp h2) (not_lt.mp h1)
    have hq : (⌊x⌋ : ℚ) < (n : ℚ) := by linarith
    have : ⌊x⌋ < n := by exact_mod_cast hq
    omega

/-! ### Projection lemmas for the controller -/

theorem apply_rgb_rgb (st : AppState) (c : ℚ × ℚ × ℚ) (src : Option PanelId) (f : Bool) :
    (apply_rgb st c src f).rgb = (clamp01 c.1, clamp01 c.2.1, clamp01 c.2.2) := by
  simp only [apply_rgb]
  split_ifs <;> rfl

theorem apply_rgb_clipped (st : AppState) (c : ℚ × ℚ × ℚ) (src : Option PanelId) (f : Bool) :
    (apply_rgb st c src f).clipped = f := by
  simp only [apply_rgb]
  split_ifs <;> rfl

theorem getPanel_apply_rgb_model (st : AppState) (c : ℚ × ℚ × ℚ) (src : Option PanelId)
    (f : Bool) (q : PanelId) :
    (getPanel (apply_rgb st c src f) q).model = (getPanel st q).model := by
  cases q <;> simp only [apply_rgb, getPanel, set_from_srgb] <;> split_ifs <;> rfl

theorem getPanel_apply_rgb_source (st : AppState) (c : ℚ × ℚ × ℚ) (f : Bool) (pid : PanelId) :
    (getPanel (apply_rgb st c (some pid) f) pid).vals = (getPanel st pid).vals := by
  cases pid <;> simp [apply_rgb, getPanel, set_from_srgb]

theorem getPanel_apply_rgb_other (st : AppState) (c : ℚ × ℚ × ℚ) (src : Option PanelId)
    (f : Bool) (q : PanelId) (hq : src ≠ some q) :
    getPanel (apply_rgb st c src f) q
      = set_from_srgb (getPanel st q) (apply_rgb st c src f).rgb := by
  rw [apply_rgb_rgb]
  cases q <;>
    (simp only [apply_rgb, getPanel, set_from_srgb]
     split_ifs <;> simp_all)

theorem getPanel_setPanelVals_same (st : AppState) (pid : PanelId) (vals : List ℚ) :
    getPanel (setPanelVals st pid vals) pid = { getPanel st pid with vals := vals } := by
  cases pid <;> rfl

theorem getPanel_setPanelVals_model (st : AppState) (pid q : PanelId) (vals : List ℚ) :
    (getPanel (setPanelVals st pid vals) q).model = (getPanel st q).model := by
  cases pid <;> cases q <;> rfl

/-! ### Claim C10: RGB edits are quantized to the 8-bit grid -/

theorem convert_to_srgb_rgb_eval (v0 v1 v2 : ℚ) (rest : List ℚ) :
    convert_to_srgb "RGB" (v0 :: v1 :: v2 :: rest)
      = some ((((max 0 (min 255 (pyRound v0)) : ℤ) : ℚ) / 255,
               ((max 0 (min 255 (pyRound v1)) : ℤ) : ℚ) / 255,
               ((max 0 (min 255 (pyRound v2)) : ℤ) : ℚ) / 255), false) := rfl

/-- C10: an RGB-sourced edit is quantized to the 8-bit grid:
`convert_to_srgb "RGB" values` rounds each value to the nearest integer
(Python `round`, ties to even), clamps it to [0,255] and divides by 255;
each channel of the result is `n/255` for an integer `0 ≤ n ≤ 255`; and
non-integer inputs behave identically to their rounded integers. -/
theorem C10_rgb_edit_quantized (v0 v1 v2 : ℚ) (rest : List ℚ) :
    convert_to_srgb "RGB" (v0 :: v1 :: v2 :: rest)
      = some ((((max 0 (min 255 (pyRound v0)) : ℤ) : ℚ) / 255,
               ((max 0 (min 255 (pyRound v1)) : ℤ) : ℚ) / 255,
               ((max 0 (min 255 (pyRound v2)) : ℤ) : ℚ) / 255), false)
    ∧ (∃ n0 n1 n2 : ℕ, n0 ≤ 255 ∧ n1 ≤ 255 ∧ n2 ≤ 255 ∧
        convert_to_srgb "RGB" (v0 :: v1 :: v2 :: rest)
          = some (((n0 : ℚ) / 255, (n1 : ℚ) / 255, (n2 : ℚ) / 255), false))
    ∧ convert_to_srgb "RGB" (v0 :: v1 :: v2 :: rest)
      = convert_to_srgb "RGB"
          (((pyRound v0 : ℤ) : ℚ) :: ((pyRound v1 : ℤ) : ℚ) :: ((pyRound v2 : ℤ) : ℚ) :: rest) := by
  have hcast : ∀ p : ℤ, (((max 0 (min 255 p)).toNat : ℕ) : ℚ) = ((max 0 (min 255 p) : ℤ) : ℚ) := by
    intro p
    have h0 : (0 : ℤ) ≤ max 0 (min 255 p) := le_max_left _ _
    exact_mod_cast congrArg (Int.cast : ℤ → ℚ) (Int.toNat_of_nonneg h0)
  have hle : ∀ p : ℤ, (max 0 (min 255 p)).toNat ≤ 255 := by
    intro p
    rw [Int.toNat_le]
    exact max_le (by norm_num) (min_le_left _ _)
  refine ⟨convert_to_srgb_rgb_eval v0 v1 v2 rest, ?_, ?_⟩
  · refine ⟨(max 0 (min 255 (pyRound v0))).toNat, (max 0 (min 255 (pyRound v1))).toNat,
      (max 0 (min 255 (pyRound v2))).toNat, hle _, hle _, hle _, ?_⟩
    rw [convert_to_srgb_rgb_eval]
    simp only [hcast]
  · rw [convert_to_srgb_rgb_eval, convert_to_srgb_rgb_eval,
      pyRound_intCast, pyRound_intCast, pyRound_intCast]

/-! ### Claim C2: the clipped flag policy -/

theorem convert_to_srgb_cmyk_eval (c m y k : ℚ) (rest : List ℚ) :
    convert_to_srgb "CMYK" (c :: m :: y :: k :: rest)
      = some (cmyk_to_srgb (c, m, y, k), false) := rfl

theorem convert_to_srgb_hls_eval (h l s : ℚ) (rest : List ℚ) :
    convert_to_srgb "HLS" (h :: l :: s :: rest)
      = some ((clamp01 (hls_to_srgb (h, l, s)).1, clamp01 (hls_to_srgb (h, l, s)).2.1,
               clamp01 (hls_to_srgb (h, l, s)).2.2),
          if clamp01 (hls_to_srgb (h, l, s)).1 = (hls_to_srgb (h, l, s)).1
              ∧ clamp01 (hls_to_srgb (h, l, s)).2.1 = (hls_to_srgb (h, l, s)).2.1
              ∧ clamp01 (hls_to_srgb (h, l, s)).2.2 = (hls_to_srgb (h, l, s)).2.2
            then false else true) := rfl

theorem hls_clip_flag_iff (X : ℚ × ℚ × ℚ) :
    ((if clamp01 X.1 = X.1 ∧ clamp01 X.2.1 = X.2.1 ∧ clamp01 X.2.2 = X.2.2
        then false else true) = true
      ↔ (clamp01 X.1, clamp01 X.2.1, clamp01 X.2.2) ≠ X) := by
  obtain ⟨a, b, c⟩ := X
  simp only [Prod.mk.injEq]
  split_ifs with hc
  · simp [hc.1, hc.2.1, hc.2.2]
  · simpa using hc

/-- C2: the clipped flag returned by `convert_to_srgb` is always false for the
"RGB" and "CMYK" models, a hex-sourced edit always displays clipped = false,
and for "HLS" the flag is true iff clamping the `hls_to_srgb` output into
[0,1] changed at least one channel. -/
theorem C2_clipped_flag_policy :
    (∀ (vals : List ℚ) (out : (ℚ × ℚ × ℚ) × Bool),
        convert_to_srgb "RGB" vals = some out → out.2 = false)
    ∧ (∀ (vals : List ℚ) (out : (ℚ × ℚ × ℚ) × Bool),
        convert_to_srgb "CMYK" vals = some out → out.2 = false)
    ∧ (∀ (st : AppState) (txt : List Char) (rgb : ℚ × ℚ × ℚ),
        hex_to_srgb (stripWs txt) = some rgb → (hex_entered st txt).clipped = false)
    ∧ (∀ (h l s : ℚ) (rest : List ℚ) (out : (ℚ × ℚ × ℚ) × Bool),
        convert_to_srgb "HLS" (h :: l :: s :: rest) = some out →
          (out.2 = true ↔ out.1 ≠ hls_to_srgb (h, l, s))) := by
  refine ⟨?_, ?_, ?_, ?_⟩
  · intro vals out h
    rcases vals with _ | ⟨a, _ | ⟨b, _ | ⟨c, rest⟩⟩⟩
    · exact Option.noConfusion h
    · exact Option.noConfusion h
    · exact Option.noConfusion h
    · rw [convert_to_srgb_rgb_eval, Option.some.injEq] at h
      rw [← h]
  · intro vals out h
    rcases vals with _ | ⟨a, _ | ⟨b, _ | ⟨c, _ | ⟨d, rest⟩⟩⟩⟩
    · exact Option.noConfusion h
    · exact Option.noConfusion h
    · exact Option.noConfusion h
    · exact Option.noConfusion h
    · rw [convert_to_srgb_cmyk_eval, Option.some.injEq] at h
      rw [← h]
  · intro st txt rgb h
    simp only [hex_entered, h]
    exact apply_rgb_clipped st rgb none false
  · intro h l s rest out hconv
    rw [convert_to_srgb_hls_eval, Option.some.injEq] at hconv
    rw [← hconv]
    exact hls_clip_flag_iff (hls_to_srgb (h, l, s))

/-- Witness for C2: entering `#00FF00` in the hex field displays no clipping. -/
theorem C2_clipped_flag_policy_witness :
    (hex_entered ⟨(1, 0, 0), ⟨Model.CMYK, []⟩, ⟨Model.RGB, []⟩, ⟨Model.HLS, []⟩, false⟩
      ['#', '0', '0', 'F', 'F', '0', '0']).clipped = false :=
  C2_clipped_flag_policy.2.2.1 _ _ (((0 : ℤ) : ℚ) / 255, ((255 : ℤ) : ℚ) / 255, ((0 : ℤ) : ℚ) / 255) rfl

/-! ### Claim C7: FormatError paths change no state -/

/-- C7: a malformed hex string entered in the hex field leaves the application
state exactly unchanged; an unrecognized model identifier makes
`convert_to_srgb` and `convert_from_srgb` fail (raise), and a failing
conversion leaves the state of `_panel_changed` exactly unchanged. -/
theorem C7_format_error_no_state_change :
    (∀ (st : AppState) (txt : List Char),
        hex_to_srgb (stripWs txt) = none → hex_entered st txt = st)
    ∧ (∀ (panelName : String), panelName ≠ "RGB" → panelName ≠ "CMYK" → panelName ≠ "HLS" →
        (∀ vals, convert_to_srgb panelName vals = none)
        ∧ ∀ rgbn, convert_from_srgb panelName rgbn = none)
    ∧ (∀ (st : AppState) (pid : PanelId),
        convert_to_srgb (getPanel st pid).model.pname (getPanel st pid).vals = none →
          panel_changed st pid = st) := by
  refine ⟨?_, ?_, ?_⟩
  · intro st txt h
    simp only [hex_entered, h]
  · intro panelName h1 h2 h3
    constructor
    · intro vals
      simp only [convert_to_srgb, if_neg h1, if_neg h2, if_neg h3]
    · intro rgbn
      simp only [convert_from_srgb, if_neg h1, if_neg h2, if_neg h3]
  · intro st pid h
    simp only [panel_changed, h]

/-- Witness for C7: a 2-character hex entry is rejected and changes nothing;
an unknown model name makes the conversion fail. -/
theorem C7_format_error_no_state_change_witness :
    hex_entered (⟨(1, 0, 0), ⟨Model.CMYK, []⟩, ⟨Model.RGB, []⟩, ⟨Model.HLS, []⟩, false⟩ : AppState)
        ['1', '2']
      = (⟨(1, 0, 0), ⟨Model.CMYK, []⟩, ⟨Model.RGB, []⟩, ⟨Model.HLS, []⟩, false⟩ : AppState)
    ∧ convert_to_srgb "XYZ" [1, 2, 3] = none :=
  ⟨C7_format_error_no_state_change.1 _ _ rfl,
   (C7_format_error_no_state_change.2.1 "XYZ" (by decide) (by decide) (by decide)).1 [1, 2, 3]⟩

/-! ### Claim C9: repeated identical edits are idempotent -/

theorem setPanelVals_setPanelVals (st : AppState) (pid : PanelId) (v : List ℚ) :
    setPanelVals (setPanelVals st pid v) pid v = setPanelVals st pid v := by
  cases pid <;> rfl

theorem editPanel_eval (st : AppState) (pid : PanelId) (vals : List ℚ) :
    editPanel st pid vals
      = match convert_to_srgb (getPanel st pid).model.pname vals with
        | some (rgbn, clip) => apply_rgb (setPanelVals st pid vals) rgbn (some pid) clip
        | none => setPanelVals st pid vals := by
  unfold editPanel panel_changed
  rw [getPanel_setPanelVals_same]

/-- C9: applying the same model edit (same panel, same values) twice in
succession yields the same canonical color and the same clipped flag both
times; `convert_to_srgb` is a pure function of the model name and values, so
the repeated edit converts identically and the canonical replacement is
idempotent. -/
theorem C9_idempotent_edit (st : AppState) (pid : PanelId) (vals : List ℚ) :
    (editPanel (editPanel st pid vals) pid vals).rgb = (editPanel st pid vals).rgb
    ∧ (editPanel (editPanel st pid vals) pid vals).clipped
        = (editPanel st pid vals).clipped := by
  cases hcv : convert_to_srgb (getPanel st pid).model.pname vals with
  | none =>
    have e1 : editPanel st pid vals = setPanelVals st pid vals := by
      rw [editPanel_eval, hcv]
    have e2 : editPanel (editPanel st pid vals) pid vals = setPanelVals st pid vals := by
      rw [editPanel_eval, e1, getPanel_setPanelVals_model, hcv, setPanelVals_setPanelVals]
    rw [e2, e1]
    exact ⟨rfl, rfl⟩
  | some out =>
    obtain ⟨rgbn, clip⟩ := out
    have e1 : editPanel st pid vals = apply_rgb (setPanelVals st pid vals) rgbn (some pid) clip := by
      rw [editPanel_eval, hcv]
    have hm : (getPanel (editPanel st pid vals) pid).model = (getPanel st pid).model := by
      rw [e1, getPanel_apply_rgb_model, getPanel_setPanelVals_model]
    have e2 : editPanel (editPanel st pid vals) pid vals
        = apply_rgb (setPanelVals (editPanel st pid vals) pid vals) rgbn (some pid) clip := by
      rw [editPanel_eval, hm, hcv]
    constructor
    · rw [e2, e1, apply_rgb_rgb, apply_rgb_rgb]
    · rw [e2, e1, apply_rgb_clipped, apply_rgb_clipped]

/-! ### Claim C8: refresh fan-out policy -/

/-- C8: after an accepted panel edit, the originating panel's values are left
untouched, and every other panel is refreshed from the new canonical color;
an edit with no panel source (hex field, color picker) refreshes all three
panels from the new canonical color. -/
theorem C8_refresh_policy :
    (∀ (st : AppState) (rgbn : ℚ × ℚ × ℚ) (clip : Bool) (pid : PanelId),
        (getPanel (apply_rgb st rgbn (some pid) clip) pid).vals = (getPanel st pid).vals
        ∧ ∀ q : PanelId, q ≠ pid →
            getPanel (apply_rgb st rgbn (some pid) clip) q
              = set_from_srgb (getPanel st q) (apply_rgb st rgbn (some pid) clip).rgb)
    ∧ (∀ (st : AppState) (rgbn : ℚ × ℚ × ℚ) (clip : Bool) (q : PanelId),
        getPanel (apply_rgb st rgbn none clip) q
          = set_from_srgb (getPanel st q) (apply_rgb st rgbn none clip).rgb) := by
  constructor
  · intro st rgbn clip pid
    refine ⟨getPanel_apply_rgb_source st rgbn clip pid, ?_⟩
    intro q hq
    exact getPanel_apply_rgb_other st rgbn (some pid) clip q
      (fun hcontra => hq (Option.some.inj hcontra).symm)
  · intro st rgbn clip q
    exact getPanel_apply_rgb_other st rgbn none clip q (by simp)

/-- Witness for C8: an RGB-panel edit refreshes the CMYK panel from the new
canonical color. -/
theorem C8_refresh_policy_witness :
    getPanel (apply_rgb (⟨(1, 0, 0), ⟨Model.CMYK, []⟩, ⟨Model.RGB, []⟩, ⟨Model.HLS, []⟩, false⟩ :
          AppState) (2, 0, 0) (some PanelId.rgb) true) PanelId.cmyk
      = set_from_srgb (⟨Model.CMYK, []⟩ : Panel)
          (apply_rgb (⟨(1, 0, 0), ⟨Model.CMYK, []⟩, ⟨Model.RGB, []⟩, ⟨Model.HLS, []⟩, false⟩ :
            AppState) (2, 0, 0) (some PanelId.rgb) true).rgb :=
  (C8_refresh_policy.1 _ (2, 0, 0) true PanelId.rgb).2 PanelId.cmyk (by decide)

/-! ### Claim C4: the CMYK round-trip -/

theorem cmyk_roundtrip_exact {r g b : ℚ} (h0r : 0 ≤ r) (h1r : r ≤ 1) (h0g : 0 ≤ g) (h1g : g ≤ 1)
    (h0b : 0 ≤ b) (h1b : b ≤ 1) (hM : 1/1000000000000 < max r (max g b)) :
    cmyk_to_srgb (srgb_to_cmyk (r, g, b)) = (r, g, b) := by
  have hcr : clampQ 0 1 r = r := clampQ_of_mem h0r h1r
  have hcg : clampQ 0 1 g = g := clampQ_of_mem h0g h1g
  have hcb : clampQ 0 1 b = b := clampQ_of_mem h0b h1b
  set M := max r (max g b) with hMdef
  have hM0 : 0 < M := lt_trans (by norm_num) hM
  have hrM : r ≤ M := le_max_left _ _
  have hgM : g ≤ M := le_trans (le_max_left _ _) (le_max_right _ _)
  have hbM : b ≤ M := le_trans (le_max_right _ _) (le_max_right _ _)
  have hM1 : M ≤ 1 := max_le h1r (max_le h1g h1b)
  have h1 : srgb_to_cmyk (r, g, b)
      = ((M - r)/M * 100, (M - g)/M * 100, (M - b)/M * 100, (1 - M) * 100) := by
    simp only [srgb_to_cmyk, hcr, hcg, hcb, ← hMdef]
    rw [if_neg (not_le.mpr (by linarith))]
    rw [show (1 : ℚ) - (1 - M) = M from by ring,
      show (1 : ℚ) - r - (1 - M) = M - r from by ring,
      show (1 : ℚ) - g - (1 - M) = M - g from by ring,
      show (1 : ℚ) - b - (1 - M) = M - b from by ring]
  rw [h1]
  have hdiv : ∀ x : ℚ, x ≤ M → 0 ≤ x → ((M : ℚ) - x)/M * 100 ≤ 100 ∧ 0 ≤ (M - x)/M * 100 := by
    intro x hxM hx0
    constructor
    · have h := (div_le_one hM0).mpr (show M - x ≤ M by linarith)
      linarith
    · have h := div_nonneg (show (0:ℚ) ≤ M - x by linarith) hM0.le
      linarith
  have hk0 : (0 : ℚ) ≤ (1 - M) * 100 := by nlinarith
  have hk1 : (1 - M) * 100 ≤ 100 := by nlinarith
  simp only [cmyk_to_srgb,
    clampQ_of_mem (hdiv r hrM h0r).2 (hdiv r hrM h0r).1,
    clampQ_of_mem (hdiv g hgM h0g).2 (hdiv g hgM h0g).1,
    clampQ_of_mem (hdiv b hbM h0b).2 (hdiv b hbM h0b).1,
    clampQ_of_mem hk0 hk1]
  have er : ∀ x : ℚ, (1 - (M - x)/M * 100/100) * (1 - (1 - M) * 100/100) = x := by
    intro x
    field_simp
    ring
  rw [er r, er g, er b, clampQ_of_mem h0r h1r, clampQ_of_mem h0g h1g, clampQ_of_mem h0b h1b]

theorem cmyk_roundtrip_grid (nr ng nb : ℕ) (h1 : nr ≤ 255) (h2 : ng ≤ 255) (h3 : nb ≤ 255) :
    cmyk_to_srgb (srgb_to_cmyk ((nr : ℚ)/255, (ng : ℚ)/255, (nb : ℚ)/255))
      = ((nr : ℚ)/255, (ng : ℚ)/255, (nb : ℚ)/255) := by
  by_cases hz : nr = 0 ∧ ng = 0 ∧ nb = 0
  · obtain ⟨e1, e2, e3⟩ := hz
    subst e1; subst e2; subst e3
    norm_num [srgb_to_cmyk, cmyk_to_srgb, clampQ]
  · have hb : ∀ n : ℕ, n ≤ 255 → (0 : ℚ) ≤ (n : ℚ)/255 ∧ (n : ℚ)/255 ≤ 1 := by
      intro n hn
      constructor
      · positivity
      · rw [div_le_one (by norm_num)]
        exact_mod_cast hn
    apply cmyk_roundtrip_exact (hb nr h1).1 (hb nr h1).2 (hb ng h2).1 (hb ng h2).2
      (hb nb h3).1 (hb nb h3).2
    have hone : 1 ≤ nr ∨ 1 ≤ ng ∨ 1 ≤ nb := by omega
    have hstep : ∀ n : ℕ, 1 ≤ n → (1 : ℚ)/255 ≤ (n : ℚ)/255 := by
      intro n hn
      have : (1 : ℚ) ≤ (n : ℚ) := by exact_mod_cast hn
      linarith
    have hrM : (nr : ℚ)/255 ≤ max ((nr : ℚ)/255) (max ((ng : ℚ)/255) ((nb : ℚ)/255)) :=
      le_max_left _ _
    have hgM : (ng : ℚ)/255 ≤ max ((nr : ℚ)/255) (max ((ng : ℚ)/255) ((nb : ℚ)/255)) :=
      le_trans (le_max_left _ _) (le_max_right _ _)
    have hbM : (nb : ℚ)/255 ≤ max ((nr : ℚ)/255) (max ((ng : ℚ)/255) ((nb : ℚ)/255)) :=
      le_trans (le_max_right _ _) (le_max_right _ _)
    rcases hone with h | h | h
    · have := hstep nr h
      linarith
    · have := hstep ng h
      linarith
    · have := hstep nb h
      linarith

/-- C4: for every RGB triple on the 8-bit grid `n/255`, converting to CMYK and
back recovers the triple within 1e-6 per channel (in fact exactly), and on the
pure-black branch (`k ≈ 1`) the result is exactly `(0,0,0)`. -/
theorem C4_cmyk_roundtrip (nr ng nb : ℕ) (h1 : nr ≤ 255) (h2 : ng ≤ 255) (h3 : nb ≤ 255) :
    (|(cmyk_to_srgb (srgb_to_cmyk ((nr : ℚ)/255, (ng : ℚ)/255, (nb : ℚ)/255))).1
        - (nr : ℚ)/255| ≤ 1/1000000
      ∧ |(cmyk_to_srgb (srgb_to_cmyk ((nr : ℚ)/255, (ng : ℚ)/255, (nb : ℚ)/255))).2.1
        - (ng : ℚ)/255| ≤ 1/1000000
      ∧ |(cmyk_to_srgb (srgb_to_cmyk ((nr : ℚ)/255, (ng : ℚ)/255, (nb : ℚ)/255))).2.2
        - (nb : ℚ)/255| ≤ 1/1000000)
    ∧ (nr = 0 ∧ ng = 0 ∧ nb = 0 →
        cmyk_to_srgb (srgb_to_cmyk ((nr : ℚ)/255, (ng : ℚ)/255, (nb : ℚ)/255)) = (0, 0, 0)) := by
  constructor
  · rw [cmyk_roundtrip_grid nr ng nb h1 h2 h3]
    norm_num
  · rintro ⟨e1, e2, e3⟩
    subst e1; subst e2; subst e3
    rw [cmyk_roundtrip_grid 0 0 0 (by norm_num) (by norm_num) (by norm_num)]
    norm_num

/-- Witness for C4 at a concrete grid point. -/
theorem C4_cmyk_roundtrip_witness :
    (|(cmyk_to_srgb (srgb_to_cmyk ((10 : ℚ)/255, (20 : ℚ)/255, (30 : ℚ)/255))).1
        - (10 : ℚ)/255| ≤ 1/1000000
      ∧ |(cmyk_to_srgb (srgb_to_cmyk ((10 : ℚ)/255, (20 : ℚ)/255, (30 : ℚ)/255))).2.1
        - (20 : ℚ)/255| ≤ 1/1000000
      ∧ |(cmyk_to_srgb (srgb_to_cmyk ((10 : ℚ)/255, (20 : ℚ)/255, (30 : ℚ)/255))).2.2
        - (30 : ℚ)/255| ≤ 1/1000000)
    ∧ ((10 : ℕ) = 0 ∧ (20 : ℕ) = 0 ∧ (30 : ℕ) = 0 →
        cmyk_to_srgb (srgb_to_cmyk ((10 : ℚ)/255, (20 : ℚ)/255, (30 : ℚ)/255)) = (0, 0, 0)) := by
  have h := C4_cmyk_roundtrip 10 20 30 (by norm_num) (by norm_num) (by norm_num)
  exact_mod_cast h

/-! ### Claim C3: hex parsing accepts some non-hex strings (code bug) -/

/-- C3: the claim says `hex_to_srgb` fails unless exactly 6 hex digits remain,
and on success each channel is an integer 0–255 divided by 255.  The code
instead parses the 2-character slices with Python `int(s, 16)`, which accepts
a sign: `"-12345"` is accepted and produces a negative red channel, outside
the declared [0,1] range. -/
theorem C3_hex_sign_accepted :
    hex_to_srgb ['-', '1', '2', '3', '4', '5'] = some (-(1/255), 35/255, 69/255)
    ∧ (-(1/255) : ℚ) < 0 := by
  have h : hex_to_srgb ['-', '1', '2', '3', '4', '5']
      = some (((-1 : ℤ) : ℚ)/255, ((35 : ℤ) : ℚ)/255, ((69 : ℤ) : ℚ)/255) := rfl
  refine ⟨?_, by norm_num⟩
  rw [h]
  norm_num

/-! ### Claim C6: the hex round-trip is exact 8-bit quantization -/

theorem hexVal_hexUpper {n : ℕ} (h : n < 16) : hexVal (hexUpper n) = some n :=
  (by decide : ∀ m : Fin 16, hexVal (hexUpper (m : ℕ)) = some (m : ℕ)) ⟨n, h⟩

theorem isWs_hexUpper {n : ℕ} (h : n < 16) : isWs (hexUpper n) = false :=
  (by decide : ∀ m : Fin 16, isWs (hexUpper (m : ℕ)) = false) ⟨n, h⟩

theorem pyIntHex2_hexByte {n : ℕ} (hn : n ≤ 255) :
    pyIntHex2 (hexUpper (n / 16)) (hexUpper (n % 16)) = some (n : ℤ) := by
  have h1 : hexVal (hexUpper (n / 16)) = some (n / 16) := hexVal_hexUpper (by omega)
  have h2 : hexVal (hexUpper (n % 16)) = some (n % 16) := hexVal_hexUpper (by omega)
  simp only [pyIntHex2, h1, h2]
  congr 1
  push_cast
  omega

theorem dropWhile_isWs_eq_self {l : List Char} (h : ∀ c ∈ l, isWs c = false) :
    l.dropWhile isWs = l := by
  cases l with
  | nil => rfl
  | cons a t =>
    have := h a (List.mem_cons_self a t)
    rw [List.dropWhile_cons, if_neg (by simp [this])]

theorem stripWs_eq_self {l : List Char} (h : ∀ c ∈ l, isWs c = false) : stripWs l = l := by
  unfold stripWs
  rw [dropWhile_isWs_eq_self h,
    dropWhile_isWs_eq_self (fun c hc => h c (List.mem_reverse.mp hc)), List.reverse_reverse]

theorem hex_of_hexBytes {n1 n2 n3 : ℕ} (h1 : n1 ≤ 255) (h2 : n2 ≤ 255) (h3 : n3 ≤ 255) :
    hex_to_srgb ('#' :: (hexByte n1 ++ hexByte n2 ++ hexByte n3))
      = some ((n1 : ℚ)/255, (n2 : ℚ)/255, (n3 : ℚ)/255) := by
  have hlist : '#' :: (hexByte n1 ++ hexByte n2 ++ hexByte n3)
      = ['#', hexUpper (n1/16), hexUpper (n1 % 16), hexUpper (n2/16), hexUpper (n2 % 16),
         hexUpper (n3/16), hexUpper (n3 % 16)] := by
    simp [hexByte]
  rw [hlist]
  have hmem : ∀ c ∈ ['#', hexUpper (n1/16), hexUpper (n1 % 16), hexUpper (n2/16),
      hexUpper (n2 % 16), hexUpper (n3/16), hexUpper (n3 % 16)], isWs c = false := by
    intro c hc
    simp only [List.mem_cons, List.not_mem_nil, or_false] at hc
    rcases hc with rfl | rfl | rfl | rfl | rfl | rfl | rfl
    · decide
    · exact isWs_hexUpper (by omega)
    · exact isWs_hexUpper (by omega)
    · exact isWs_hexUpper (by omega)
    · exact isWs_hexUpper (by omega)
    · exact isWs_hexUpper (by omega)
    · exact isWs_hexUpper (by omega)
  simp only [hex_to_srgb]
  rw [stripWs_eq_self hmem]
  simp only [pyIntHex2_hexByte h1, pyIntHex2_hexByte h2, pyIntHex2_hexByte h3]
  push_cast
  rfl

/-- C6: for every RGB triple in `[0,1]^3`, `hex_to_srgb (srgb_to_hex rgb)`
equals exactly the 8-bit quantized triple whose channels are
`round(channel*255)/255` (Python `round`). -/
theorem C6_hex_roundtrip {r g b : ℚ} (h0r : 0 ≤ r) (h1r : r ≤ 1) (h0g : 0 ≤ g) (h1g : g ≤ 1)
    (h0b : 0 ≤ b) (h1b : b ≤ 1) :
    hex_to_srgb (srgb_to_hex (r, g, b))
      = some (((pyRound (r * 255) : ℤ) : ℚ)/255, ((pyRound (g * 255) : ℤ) : ℚ)/255,
              ((pyRound (b * 255) : ℤ) : ℚ)/255) := by
  have hz : ∀ x : ℚ, 0 ≤ x → x ≤ 1 → 0 ≤ pyRound (x * 255) ∧ pyRound (x * 255) ≤ 255 := by
    intro x hx0 hx1
    exact ⟨pyRound_nonneg (by positivity), pyRound_le (by push_cast; linarith)⟩
  have hhex : srgb_to_hex (r, g, b)
      = '#' :: (hexByte (pyRound (r * 255)).toNat ++ hexByte (pyRound (g * 255)).toNat
          ++ hexByte (pyRound (b * 255)).toNat) := by
    simp only [srgb_to_hex, clamp01_of_mem h0r h1r, clamp01_of_mem h0g h1g,
      clamp01_of_mem h0b h1b]
  rw [hhex, hex_of_hexBytes (Int.toNat_le.mpr (hz r h0r h1r).2)
    (Int.toNat_le.mpr (hz g h0g h1g).2) (Int.toNat_le.mpr (hz b h0b h1b).2)]
  have hcast : ∀ z : ℤ, 0 ≤ z → ((z.toNat : ℕ) : ℚ) = ((z : ℤ) : ℚ) := by
    intro z hz0
    exact_mod_cast congrArg (Int.cast : ℤ → ℚ) (Int.toNat_of_nonneg hz0)
  rw [hcast _ (hz r h0r h1r).1, hcast _ (hz g h0g h1g).1, hcast _ (hz b h0b h1b).1]

/-- Witness for C6 at a concrete in-range triple. -/
theorem C6_hex_roundtrip_witness :
    hex_to_srgb (srgb_to_hex (1/2, 1/4, 1/8))
      = some (((pyRound ((1/2 : ℚ) * 255) : ℤ) : ℚ)/255, ((pyRound ((1/4 : ℚ) * 255) : ℤ) : ℚ)/255,
              ((pyRound ((1/8 : ℚ) * 255) : ℤ) : ℚ)/255) :=
  C6_hex_roundtrip (by norm_num) (by norm_num) (by norm_num) (by norm_num) (by norm_num)
    (by norm_num)

/-! ### Claim C1: output-range invariants of the conversion functions -/

theorem hue_to_rgb_mem {m1 m2 t : ℚ} (h12 : m1 ≤ m2) (ht0 : -1 ≤ t) (ht1 : t ≤ 2) :
    m1 ≤ hue_to_rgb m1 m2 t ∧ hue_to_rgb m1 m2 t ≤ m2 := by
  simp only [hue_to_rgb]
  split_ifs <;> constructor <;> nlinarith

theorem srgb_to_hls_mem {r g b : ℚ} (h0r : 0 ≤ r) (h1r : r ≤ 1) (h0g : 0 ≤ g) (h1g : g ≤ 1)
    (h0b : 0 ≤ b) (h1b : b ≤ 1) :
    (0 ≤ (srgb_to_hls (r, g, b)).1 ∧ (srgb_to_hls (r, g, b)).1 < 360)
    ∧ (0 ≤ (srgb_to_hls (r, g, b)).2.1 ∧ (srgb_to_hls (r, g, b)).2.1 ≤ 100)
    ∧ (0 ≤ (srgb_to_hls (r, g, b)).2.2 ∧ (srgb_to_hls (r, g, b)).2.2 ≤ 100) := by
  have hmin0 : (0 : ℚ) ≤ min r (min g b) := le_min h0r (le_min h0g h0b)
  have hmax1 : max r (max g b) ≤ 1 := max_le h1r (max_le h1g h1b)
  have hminmax : min r (min g b) ≤ max r (max g b) :=
    le_trans (min_le_left _ _) (le_max_left _ _)
  simp only [srgb_to_hls]
  by_cases he : max r (max g b) = min r (min g b)
  · rw [if_pos he]
    refine ⟨⟨le_refl 0, by norm_num⟩, ⟨by nlinarith, by nlinarith⟩, ⟨le_refl 0, by norm_num⟩⟩
  · rw [if_neg he]
    have hlt : min r (min g b) < max r (max g b) := lt_of_le_of_ne hminmax (Ne.symm he)
    have hsum : 0 < max r (max g b) + min r (min g b) := by nlinarith
    have hsum2 : 0 < 2 - max r (max g b) - min r (min g b) := by nlinarith
    refine ⟨⟨pymod_nonneg _, pymod_lt_360 _⟩, ⟨by nlinarith, by nlinarith⟩, ?_⟩
    by_cases hl : (max r (max g b) + min r (min g b)) / 2 ≤ 1/2
    · rw [if_pos hl]
      constructor
      · have := div_nonneg (show (0:ℚ) ≤ max r (max g b) - min r (min g b) by linarith) hsum.le
        linarith
      · have := (div_le_one hsum).mpr
          (show max r (max g b) - min r (min g b) ≤ max r (max g b) + min r (min g b) by linarith)
        linarith
    · rw [if_neg hl]
      constructor
      · have := div_nonneg (show (0:ℚ) ≤ max r (max g b) - min r (min g b) by linarith) hsum2.le
        linarith
      · have := (div_le_one hsum2).mpr
          (show max r (max g b) - min r (min g b)
            ≤ 2 - max r (max g b) - min r (min g b) by linarith)
        linarith

theorem hls_to_srgb_mem (hls : ℚ × ℚ × ℚ) :
    (0 ≤ (hls_to_srgb hls).1 ∧ (hls_to_srgb hls).1 ≤ 1)
    ∧ (0 ≤ (hls_to_srgb hls).2.1 ∧ (hls_to_srgb hls).2.1 ≤ 1)
    ∧ (0 ≤ (hls_to_srgb hls).2.2 ∧ (hls_to_srgb hls).2.2 ≤ 1) := by
  obtain ⟨hd, lp, sp⟩ := hls
  have hh0 : 0 ≤ pymod hd 360 / 360 := div_nonneg (pymod_nonneg _) (by norm_num)
  have hh1 : pymod hd 360 / 360 < 1 := (div_lt_one (by norm_num)).mpr (pymod_lt_360 _)
  have hl0 : (0 : ℚ) ≤ clampQ 0 100 lp / 100 := div_nonneg le_clampQ (by norm_num)
  have hl1 : clampQ 0 100 lp / 100 ≤ 1 := by
    have := clampQ_le (show (0:ℚ) ≤ 100 by norm_num) (x := lp)
    linarith
  have hs0 : (0 : ℚ) ≤ clampQ 0 100 sp / 100 := div_nonneg le_clampQ (by norm_num)
  have hs1 : clampQ 0 100 sp / 100 ≤ 1 := by
    have := clampQ_le (show (0:ℚ) ≤ 100 by norm_num) (x := sp)
    linarith
  simp only [hls_to_srgb]
  by_cases hs : clampQ 0 100 sp / 100 = 0
  · rw [if_pos hs]
    exact ⟨⟨hl0, hl1⟩, ⟨hl0, hl1⟩, ⟨hl0, hl1⟩⟩
  · rw [if_neg hs]
    have hspos : 0 < clampQ 0 100 sp / 100 := lt_of_le_of_ne hs0 (Ne.symm hs)
    set L := clampQ 0 100 lp / 100 with hL
    set S := clampQ 0 100 sp / 100 with hS
    set M2 := if L ≤ 1/2 then L * (1 + S) else L + S - L * S with hM2
    have hm : 2 * L - M2 ≤ M2 ∧ 0 ≤ 2 * L - M2 ∧ M2 ≤ 1 := by
      rw [hM2]
      split_ifs with hl
      · exact ⟨by nlinarith, by nlinarith, by nlinarith⟩
      · exact ⟨by nlinarith, by nlinarith, by nlinarith⟩
    have hseg : ∀ t : ℚ, -1 ≤ t → t ≤ 2 →
        0 ≤ hue_to_rgb (2 * L - M2) M2 t ∧ hue_to_rgb (2 * L - M2) M2 t ≤ 1 := by
      intro t ht0 ht1
      have := hue_to_rgb_mem hm.1 ht0 ht1
      exact ⟨le_trans hm.2.1 this.1, le_trans this.2 hm.2.2⟩
    exact ⟨hseg _ (by linarith) (by linarith), hseg _ (by linarith) (by linarith),
      hseg _ (by linarith) (by linarith)⟩

theorem srgb_to_cmyk_mem (rgb : ℚ × ℚ × ℚ) :
    (0 ≤ (srgb_to_cmyk rgb).1 ∧ (srgb_to_cmyk rgb).1 ≤ 100)
    ∧ (0 ≤ (srgb_to_cmyk rgb).2.1 ∧ (srgb_to_cmyk rgb).2.1 ≤ 100)
    ∧ (0 ≤ (srgb_to_cmyk rgb).2.2.1 ∧ (srgb_to_cmyk rgb).2.2.1 ≤ 100)
    ∧ (0 ≤ (srgb_to_cmyk rgb).2.2.2 ∧ (srgb_to_cmyk rgb).2.2.2 ≤ 100) := by
  obtain ⟨r, g, b⟩ := rgb
  have hcr0 : (0:ℚ) ≤ clampQ 0 1 r := le_clampQ
  have hcr1 : clampQ 0 1 r ≤ 1 := clampQ_le (by norm_num)
  have hcg0 : (0:ℚ) ≤ clampQ 0 1 g := le_clampQ
  have hcg1 : clampQ 0 1 g ≤ 1 := clampQ_le (by norm_num)
  have hcb0 : (0:ℚ) ≤ clampQ 0 1 b := le_clampQ
  have hcb1 : clampQ 0 1 b ≤ 1 := clampQ_le (by norm_num)
  simp only [srgb_to_cmyk]
  set M := max (clampQ 0 1 r) (max (clampQ 0 1 g) (clampQ 0 1 b)) with hM
  have hM1 : M ≤ 1 := max_le hcr1 (max_le hcg1 hcb1)
  have hrM : clampQ 0 1 r ≤ M := le_max_left _ _
  have hgM : clampQ 0 1 g ≤ M := le_trans (le_max_left _ _) (le_max_right _ _)
  have hbM : clampQ 0 1 b ≤ M := le_trans (le_max_right _ _) (le_max_right _ _)
  have hM0 : 0 ≤ M := le_trans hcr0 hrM
  split_ifs with hk
  · norm_num
  · have hMpos : 0 < M := by
      rw [not_le] at hk
      nlinarith
    have e1 : (1:ℚ) - (1 - M) = M := by ring
    have comp : ∀ x : ℚ, 0 ≤ x → x ≤ M →
        0 ≤ (1 - x - (1 - M)) / (1 - (1 - M)) * 100
        ∧ (1 - x - (1 - M)) / (1 - (1 - M)) * 100 ≤ 100 := by
      intro x hx0 hxM
      rw [e1, show (1:ℚ) - x - (1 - M) = M - x from by ring]
      constructor
      · have := div_nonneg (show (0:ℚ) ≤ M - x by linarith) hM0
        linarith
      · have := (div_le_one hMpos).mpr (show M - x ≤ M by linarith)
        linarith
    refine ⟨comp _ hcr0 hrM, comp _ hcg0 hgM, comp _ hcb0 hbM, ⟨by nlinarith, by nlinarith⟩⟩

theorem cmyk_to_srgb_mem (cmyk : ℚ × ℚ × ℚ × ℚ) :
    (0 ≤ (cmyk_to_srgb cmyk).1 ∧ (cmyk_to_srgb cmyk).1 ≤ 1)
    ∧ (0 ≤ (cmyk_to_srgb cmyk).2.1 ∧ (cmyk_to_srgb cmyk).2.1 ≤ 1)
    ∧ (0 ≤ (cmyk_to_srgb cmyk).2.2 ∧ (cmyk_to_srgb cmyk).2.2 ≤ 1) := by
  obtain ⟨c, m, y, k⟩ := cmyk
  simp only [cmyk_to_srgb]
  exact ⟨⟨le_clampQ, clampQ_le (by norm_num)⟩, ⟨le_clampQ, clampQ_le (by norm_num)⟩,
    ⟨le_clampQ, clampQ_le (by norm_num)⟩⟩

/-- C1 as stated is false: `srgb_to_hls` does not clamp its input, and its
lightness output escapes [0,100] on out-of-range input `(2,2,2)`. -/
theorem C1_range_counterexample : ¬ ((srgb_to_hls (2, 2, 2)).2.1 ≤ 100) := by
  have h : srgb_to_hls (2, 2, 2) = (0, 200, 0) := by norm_num [srgb_to_hls]
  rw [h]
  norm_num

/-- C1 (amended): `hls_to_srgb`, `srgb_to_cmyk` and `cmyk_to_srgb` clamp their
inputs and their outputs always lie in the declared legal ranges, for every
input; `srgb_to_hls` does not clamp, but for inputs already in `[0,1]^3` its
outputs lie in the declared ranges ([0,360) hue, [0,100] L and S). -/
theorem C1_ranges_amended :
    (∀ r g b : ℚ, 0 ≤ r → r ≤ 1 → 0 ≤ g → g ≤ 1 → 0 ≤ b → b ≤ 1 →
        (0 ≤ (srgb_to_hls (r, g, b)).1 ∧ (srgb_to_hls (r, g, b)).1 < 360)
        ∧ (0 ≤ (srgb_to_hls (r, g, b)).2.1 ∧ (srgb_to_hls (r, g, b)).2.1 ≤ 100)
        ∧ (0 ≤ (srgb_to_hls (r, g, b)).2.2 ∧ (srgb_to_hls (r, g, b)).2.2 ≤ 100))
    ∧ (∀ hls : ℚ × ℚ × ℚ,
        (0 ≤ (hls_to_srgb hls).1 ∧ (hls_to_srgb hls).1 ≤ 1)
        ∧ (0 ≤ (hls_to_srgb hls).2.1 ∧ (hls_to_srgb hls).2.1 ≤ 1)
        ∧ (0 ≤ (hls_to_srgb hls).2.2 ∧ (hls_to_srgb hls).2.2 ≤ 1))
    ∧ (∀ rgb : ℚ × ℚ × ℚ,
        (0 ≤ (srgb_to_cmyk rgb).1 ∧ (srgb_to_cmyk rgb).1 ≤ 100)
        ∧ (0 ≤ (srgb_to_cmyk rgb).2.1 ∧ (srgb_to_cmyk rgb).2.1 ≤ 100)
        ∧ (0 ≤ (srgb_to_cmyk rgb).2.2.1 ∧ (srgb_to_cmyk rgb).2.2.1 ≤ 100)
        ∧ (0 ≤ (srgb_to_cmyk rgb).2.2.2 ∧ (srgb_to_cmyk rgb).2.2.2 ≤ 100))
    ∧ (∀ cmyk : ℚ × ℚ × ℚ × ℚ,
        (0 ≤ (cmyk_to_srgb cmyk).1 ∧ (cmyk_to_srgb cmyk).1 ≤ 1)
        ∧ (0 ≤ (cmyk_to_srgb cmyk).2.1 ∧ (cmyk_to_srgb cmyk).2.1 ≤ 1)
        ∧ (0 ≤ (cmyk_to_srgb cmyk).2.2 ∧ (cmyk_to_srgb cmyk).2.2 ≤ 1)) :=
  ⟨fun _ _ _ h1 h2 h3 h4 h5 h6 => srgb_to_hls_mem h1 h2 h3 h4 h5 h6,
   hls_to_srgb_mem, srgb_to_cmyk_mem, cmyk_to_srgb_mem⟩

/-- Witness for C1 (amended) at a concrete in-range triple. -/
theorem C1_ranges_amended_witness :
    (0 ≤ (srgb_to_hls (1/2, 1/3, 1/4)).1 ∧ (srgb_to_hls (1/2, 1/3, 1/4)).1 < 360)
    ∧ (0 ≤ (srgb_to_hls (1/2, 1/3, 1/4)).2.1 ∧ (srgb_to_hls (1/2, 1/3, 1/4)).2.1 ≤ 100)
    ∧ (0 ≤ (srgb_to_hls (1/2, 1/3, 1/4)).2.2 ∧ (srgb_to_hls (1/2, 1/3, 1/4)).2.2 ≤ 100) :=
  C1_ranges_amended.1 (1/2) (1/3) (1/4) (by norm_num) (by norm_num) (by norm_num)
    (by norm_num) (by norm_num) (by norm_num)

/-! ### Claim C5: the HLS round-trip on non-degenerate triples -/

theorem hue_eval_1 {m1 m2 t : ℚ} (h0 : 0 ≤ t) (h1 : t < 1/6) :
    hue_to_rgb m1 m2 t = m1 + (m2 - m1) * 6 * t := by
  simp only [hue_to_rgb]
  rw [if_neg (not_lt.mpr h0), if_neg (not_lt.mpr (show t ≤ 1 by linarith)), if_pos h1]

theorem hue_eval_2 {m1 m2 t : ℚ} (h0 : 1/6 ≤ t) (h1 : t < 1/2) :
    hue_to_rgb m1 m2 t = m2 := by
  simp only [hue_to_rgb]
  rw [if_neg (not_lt.mpr (show (0:ℚ) ≤ t by linarith)),
    if_neg (not_lt.mpr (show t ≤ 1 by linarith)), if_neg (not_lt.mpr h0), if_pos h1]

theorem hue_eval_3 {m1 m2 t : ℚ} (h0 : 1/2 ≤ t) (h1 : t < 2/3) :
    hue_to_rgb m1 m2 t = m1 + (m2 - m1) * (2/3 - t) * 6 := by
  simp only [hue_to_rgb]
  rw [if_neg (not_lt.mpr (show (0:ℚ) ≤ t by linarith)),
    if_neg (not_lt.mpr (show t ≤ 1 by linarith)),
    if_neg (not_lt.mpr (show (1:ℚ)/6 ≤ t by linarith)), if_neg (not_lt.mpr h0), if_pos h1]

theorem hue_eval_4 {m1 m2 t : ℚ} (h0 : 2/3 ≤ t) (h1 : t ≤ 1) :
    hue_to_rgb m1 m2 t = m1 := by
  simp only [hue_to_rgb]
  rw [if_neg (not_lt.mpr (show (0:ℚ) ≤ t by linarith)), if_neg (not_lt.mpr h1),
    if_neg (not_lt.mpr (show (1:ℚ)/6 ≤ t by linarith)),
    if_neg (not_lt.mpr (show (1:ℚ)/2 ≤ t by linarith)), if_neg (not_lt.mpr h0)]

theorem hue_shift_neg {m1 m2 t : ℚ} (h0 : -1 ≤ t) (h1 : t < 0) :
    hue_to_rgb m1 m2 t = hue_to_rgb m1 m2 (t + 1) := by
  simp only [hue_to_rgb]
  rw [if_pos h1, if_neg (not_lt.mpr (show (0:ℚ) ≤ t + 1 by linarith)),
    if_neg (not_lt.mpr (show t + 1 ≤ 1 by linarith))]

theorem hue_shift_gt {m1 m2 t : ℚ} (h0 : 1 < t) (h1 : t ≤ 2) :
    hue_to_rgb m1 m2 t = hue_to_rgb m1 m2 (t - 1) := by
  simp only [hue_to_rgb]
  rw [if_neg (not_lt.mpr (show (0:ℚ) ≤ t by linarith)), if_pos h0,
    if_neg (not_lt.mpr (show (0:ℚ) ≤ t - 1 by linarith)),
    if_neg (not_lt.mpr (show t - 1 ≤ 1 by linarith))]

/-- Reduce `hls_to_srgb` on the exact output shape of `srgb_to_hls` for a
non-achromatic color with minimum `mn`, maximum `mx` and hue `H` degrees:
the auxiliary values `m2`, `m1` recover `mx` and `mn`. -/
theorem hls_build {mn mx H : ℚ} (h0 : 0 ≤ mn) (h1 : mn < mx) (h2 : mx ≤ 1)
    (hH0 : 0 ≤ H) (hH1 : H < 360) :
    hls_to_srgb (H, (mx + mn)/2 * 100,
        (if (mx + mn)/2 ≤ 1/2 then (mx - mn)/(mx + mn) else (mx - mn)/(2 - mx - mn)) * 100)
      = (hue_to_rgb mn mx (H/360 + 1/3), hue_to_rgb mn mx (H/360),
         hue_to_rgb mn mx (H/360 - 1/3)) := by
  have hsum : 0 < mx + mn := by linarith
  have hsum2 : 0 < 2 - mx - mn := by linarith
  set S := (if (mx + mn)/2 ≤ 1/2 then (mx - mn)/(mx + mn) else (mx - mn)/(2 - mx - mn))
    with hS
  have hS0 : 0 < S := by
    rw [hS]
    split_ifs
    · exact div_pos (by linarith) hsum
    · exact div_pos (by linarith) hsum2
  have hS1 : S ≤ 1 := by
    rw [hS]
    split_ifs
    · exact (div_le_one hsum).mpr (by linarith)
    · exact (div_le_one hsum2).mpr (by linarith)
  have hl0 : (0:ℚ) ≤ (mx + mn)/2 * 100 := by linarith
  have hl1 : (mx + mn)/2 * 100 ≤ 100 := by linarith
  have hs0 : (0:ℚ) ≤ S * 100 := by linarith
  have hs1 : S * 100 ≤ 100 := by linarith
  simp only [hls_to_srgb]
  rw [pymod_eq_self hH0 hH1, clampQ_of_mem hl0 hl1, clampQ_of_mem hs0 hs1,
    show (mx + mn)/2 * 100 / 100 = (mx + mn)/2 from by ring,
    show S * 100 / 100 = S from by ring, if_neg hS0.ne']
  by_cases hl : (mx + mn)/2 ≤ 1/2
  · have hSv : S = (mx - mn)/(mx + mn) := by rw [hS, if_pos hl]
    rw [if_pos hl, hSv,
      show (mx + mn)/2 * (1 + (mx - mn)/(mx + mn)) = mx from by field_simp; ring,
      show 2 * ((mx + mn)/2) - mx = mn from by ring]
  · have hSv : S = (mx - mn)/(2 - mx - mn) := by rw [hS, if_neg hl]
    rw [if_neg hl, hSv,
      show (mx + mn)/2 + (mx - mn)/(2 - mx - mn)
          - (mx + mn)/2 * ((mx - mn)/(2 - mx - mn)) = mx from by field_simp; ring,
      show 2 * ((mx + mn)/2) - mx = mn from by ring]

theorem rt_maxr_minb {r g b : ℚ} (h0b : 0 ≤ b) (h1r : r ≤ 1) (hbg : b < g) (hgr : g < r) :
    hls_to_srgb (srgb_to_hls (r, g, b)) = (r, g, b) := by
  have hbr : b < r := hbg.trans hgr
  have hd : 0 < r - b := by linarith
  have hmax : max r (max g b) = r := by rw [max_eq_left hbg.le, max_eq_left hgr.le]
  have hmin : min r (min g b) = b := by rw [min_eq_right hbg.le, min_eq_right hbr.le]
  have hθ0 : 0 < (g - b)/(r - b) := div_pos (by linarith) hd
  have hθ1 : (g - b)/(r - b) < 1 := (div_lt_one hd).mpr (by linarith)
  have hH0 : 0 ≤ (g - b)/(r - b) * 60 := by linarith
  have hH1 : (g - b)/(r - b) * 60 < 360 := by linarith
  have hhls : srgb_to_hls (r, g, b)
      = ((g - b)/(r - b) * 60, (r + b)/2 * 100,
         (if (r + b)/2 ≤ 1/2 then (r - b)/(r + b) else (r - b)/(2 - r - b)) * 100) := by
    simp only [srgb_to_hls, hmax, hmin]
    rw [if_neg hbr.ne', if_true, pymod_eq_self hH0 hH1]
  rw [hhls, hls_build h0b hbr h1r hH0 hH1,
    show (g - b)/(r - b) * 60 / 360 = (g - b)/(r - b)/6 from by ring]
  have hch1 : hue_to_rgb b r ((g - b)/(r - b)/6 + 1/3) = r :=
    hue_eval_2 (by linarith) (by linarith)
  have hch2 : hue_to_rgb b r ((g - b)/(r - b)/6) = g := by
    rw [hue_eval_1 (by linarith) (by linarith)]
    field_simp
  have hch3 : hue_to_rgb b r ((g - b)/(r - b)/6 - 1/3) = b := by
    rw [hue_shift_neg (by linarith) (by linarith),
      show (g - b)/(r - b)/6 - 1/3 + 1 = (g - b)/(r - b)/6 + 2/3 from by ring]
    exact hue_eval_4 (by linarith) (by linarith)
  rw [hch1, hch2, hch3]

theorem rt_maxr_ming {r g b : ℚ} (h0g : 0 ≤ g) (h1r : r ≤ 1) (hgb : g < b) (hbr : b < r) :
    hls_to_srgb (srgb_to_hls (r, g, b)) = (r, g, b) := by
  have hgr : g < r := hgb.trans hbr
  have hd : 0 < r - g := by linarith
  have hmax : max r (max g b) = r := by rw [max_eq_right hgb.le, max_eq_left hbr.le]
  have hmin : min r (min g b) = g := by rw [min_eq_left hgb.le, min_eq_right hgr.le]
  have hθ0 : (g - b)/(r - g) < 0 := div_neg_of_neg_of_pos (by linarith) hd
  have hθ1 : -1 < (g - b)/(r - g) := by
    rw [lt_div_iff hd]
    linarith
  have hH0 : -360 ≤ (g - b)/(r - g) * 60 := by linarith
  have hH1 : (g - b)/(r - g) * 60 < 0 := by linarith
  have hhls : srgb_to_hls (r, g, b)
      = ((g - b)/(r - g) * 60 + 360, (r + g)/2 * 100,
         (if (r + g)/2 ≤ 1/2 then (r - g)/(r + g) else (r - g)/(2 - r - g)) * 100) := by
    simp only [srgb_to_hls, hmax, hmin]
    rw [if_neg hgr.ne', if_true, pymod_eq_add_360 hH0 hH1]
  rw [hhls, hls_build h0g hgr h1r (by linarith) (by linarith),
    show ((g - b)/(r - g) * 60 + 360) / 360 = (g - b)/(r - g)/6 + 1 from by ring]
  have hch1 : hue_to_rgb g r ((g - b)/(r - g)/6 + 1 + 1/3) = r := by
    rw [hue_shift_gt (by linarith) (by linarith),
      show (g - b)/(r - g)/6 + 1 + 1/3 - 1 = (g - b)/(r - g)/6 + 1/3 from by ring]
    exact hue_eval_2 (by linarith) (by linarith)
  have hch2 : hue_to_rgb g r ((g - b)/(r - g)/6 + 1) = g :=
    hue_eval_4 (by linarith) (by linarith)
  have hch3 : hue_to_rgb g r ((g - b)/(r - g)/6 + 1 - 1/3) = b := by
    rw [show (g - b)/(r - g)/6 + 1 - 1/3 = (g - b)/(r - g)/6 + 2/3 from by ring,
      hue_eval_3 (by linarith) (by linarith)]
    field_simp
    ring
  rw [hch1, hch2, hch3]

theorem rt_maxg_minr {r g b : ℚ} (h0r : 0 ≤ r) (h1g : g ≤ 1) (hrb : r < b) (hbg : b < g) :
    hls_to_srgb (srgb_to_hls (r, g, b)) = (r, g, b) := by
  have hrg : r < g := hrb.trans hbg
  have hd : 0 < g - r := by linarith
  have hmax : max r (max g b) = g := by rw [max_eq_left hbg.le, max_eq_right hrg.le]
  have hmin : min r (min g b) = r := by rw [min_eq_right hbg.le, min_eq_left hrb.le]
  have hθ0 : 0 < (b - r)/(g - r) := div_pos (by linarith) hd
  have hθ1 : (b - r)/(g - r) < 1 := (div_lt_one hd).mpr (by linarith)
  have hH0 : 0 ≤ (2 + (b - r)/(g - r)) * 60 := by linarith
  have hH1 : (2 + (b - r)/(g - r)) * 60 < 360 := by linarith
  have hhls : srgb_to_hls (r, g, b)
      = ((2 + (b - r)/(g - r)) * 60, (g + r)/2 * 100,
         (if (g + r)/2 ≤ 1/2 then (g - r)/(g + r) else (g - r)/(2 - g - r)) * 100) := by
    simp only [srgb_to_hls, hmax, hmin]
    rw [if_neg hrg.ne', if_neg hrg.ne', if_true, pymod_eq_self hH0 hH1]
  rw [hhls, hls_build h0r hrg h1g hH0 hH1,
    show (2 + (b - r)/(g - r)) * 60 / 360 = (b - r)/(g - r)/6 + 1/3 from by ring]
  have hch1 : hue_to_rgb r g ((b - r)/(g - r)/6 + 1/3 + 1/3) = r := by
    rw [show (b - r)/(g - r)/6 + 1/3 + 1/3 = (b - r)/(g - r)/6 + 2/3 from by ring]
    exact hue_eval_4 (by linarith) (by linarith)
  have hch2 : hue_to_rgb r g ((b - r)/(g - r)/6 + 1/3) = g :=
    hue_eval_2 (by linarith) (by linarith)
  have hch3 : hue_to_rgb r g ((b - r)/(g - r)/6 + 1/3 - 1/3) = b := by
    rw [show (b - r)/(g - r)/6 + 1/3 - 1/3 = (b - r)/(g - r)/6 from by ring,
      hue_eval_1 (by linarith) (by linarith)]
    field_simp
  rw [hch1, hch2, hch3]

theorem rt_maxg_minb {r g b : ℚ} (h0b : 0 ≤ b) (h1g : g ≤ 1) (hbr : b < r) (hrg : r < g) :
    hls_to_srgb (srgb_to_hls (r, g, b)) = (r, g, b) := by
  have hbg : b < g := hbr.trans hrg
  have hd : 0 < g - b := by linarith
  have hmax : max r (max g b) = g := by rw [max_eq_left hbg.le, max_eq_right hrg.le]
  have hmin : min r (min g b) = b := by rw [min_eq_right hbg.le, min_eq_right hbr.le]
  have hθ0 : (b - r)/(g - b) < 0 := div_neg_of_neg_of_pos (by linarith) hd
  have hθ1 : -1 < (b - r)/(g - b) := by
    rw [lt_div_iff hd]
    linarith
  have hH0 : 0 ≤ (2 + (b - r)/(g - b)) * 60 := by linarith
  have hH1 : (2 + (b - r)/(g - b)) * 60 < 360 := by linarith
  have hhls : srgb_to_hls (r, g, b)
      = ((2 + (b - r)/(g - b)) * 60, (g + b)/2 * 100,
         (if (g + b)/2 ≤ 1/2 then (g - b)/(g + b) else (g - b)/(2 - g - b)) * 100) := by
    simp only [srgb_to_hls, hmax, hmin]
    rw [if_neg hbg.ne', if_neg hrg.ne', if_true, pymod_eq_self hH0 hH1]
  rw [hhls, hls_build h0b hbg h1g hH0 hH1,
    show (2 + (b - r)/(g - b)) * 60 / 360 = (b - r)/(g - b)/6 + 1/3 from by ring]
  have hch1 : hue_to_rgb b g ((b - r)/(g - b)/6 + 1/3 + 1/3) = r := by
    rw [show (b - r)/(g - b)/6 + 1/3 + 1/3 = (b - r)/(g - b)/6 + 2/3 from by ring,
      hue_eval_3 (by linarith) (by linarith)]
    field_simp
    ring
  have hch2 : hue_to_rgb b g ((b - r)/(g - b)/6 + 1/3) = g :=
    hue_eval_2 (by linarith) (by linarith)
  have hch3 : hue_to_rgb b g ((b - r)/(g - b)/6 + 1/3 - 1/3) = b := by
    rw [show (b - r)/(g - b)/6 + 1/3 - 1/3 = (b - r)/(g - b)/6 from by ring,
      hue_shift_neg (by linarith) (by linarith)]
    exact hue_eval_4 (by linarith) (by linarith)
  rw [hch1, hch2, hch3]

theorem rt_maxb_ming {r g b : ℚ} (h0g : 0 ≤ g) (h1b : b ≤ 1) (hgr : g < r) (hrb : r < b) :
    hls_to_srgb (srgb_to_hls (r, g, b)) = (r, g, b) := by
  have hgb : g < b := hgr.trans hrb
  have hd : 0 < b - g := by linarith
  have hmax : max r (max g b) = b := by rw [max_eq_right hgb.le, max_eq_right hrb.le]
  have hmin : min r (min g b) = g := by rw [min_eq_left hgb.le, min_eq_right hgr.le]
  have hθ0 : 0 < (r - g)/(b - g) := div_pos (by linarith) hd
  have hθ1 : (r - g)/(b - g) < 1 := (div_lt_one hd).mpr (by linarith)
  have hH0 : 0 ≤ (4 + (r - g)/(b - g)) * 60 := by linarith
  have hH1 : (4 + (r - g)/(b - g)) * 60 < 360 := by linarith
  have hhls : srgb_to_hls (r, g, b)
      = ((4 + (r - g)/(b - g)) * 60, (b + g)/2 * 100,
         (if (b + g)/2 ≤ 1/2 then (b - g)/(b + g) else (b - g)/(2 - b - g)) * 100) := by
    simp only [srgb_to_hls, hmax, hmin]
    rw [if_neg hgb.ne', if_neg hrb.ne', if_neg hgb.ne', pymod_eq_self hH0 hH1]
  rw [hhls, hls_build h0g hgb h1b hH0 hH1,
    show (4 + (r - g)/(b - g)) * 60 / 360 = (r - g)/(b - g)/6 + 2/3 from by ring]
  have hch1 : hue_to_rgb g b ((r - g)/(b - g)/6 + 2/3 + 1/3) = r := by
    rw [show (r - g)/(b - g)/6 + 2/3 + 1/3 = (r - g)/(b - g)/6 + 1 from by ring,
      hue_shift_gt (by linarith) (by linarith),
      show (r - g)/(b - g)/6 + 1 - 1 = (r - g)/(b - g)/6 from by ring,
      hue_eval_1 (by linarith) (by linarith)]
    field_simp
  have hch2 : hue_to_rgb g b ((r - g)/(b - g)/6 + 2/3) = g :=
    hue_eval_4 (by linarith) (by linarith)
  have hch3 : hue_to_rgb g b ((r - g)/(b - g)/6 + 2/3 - 1/3) = b := by
    rw [show (r - g)/(b - g)/6 + 2/3 - 1/3 = (r - g)/(b - g)/6 + 1/3 from by ring]
    exact hue_eval_2 (by linarith) (by linarith)
  rw [hch1, hch2, hch3]

theorem rt_maxb_minr {r g b : ℚ} (h0r : 0 ≤ r) (h1b : b ≤ 1) (hrg : r < g) (hgb : g < b) :
    hls_to_srgb (srgb_to_hls (r, g, b)) = (r, g, b) := by
  have hrb : r < b := hrg.trans hgb
  have hd : 0 < b - r := by linarith
  have hmax : max r (max g b) = b := by rw [max_eq_right hgb.le, max_eq_right hrb.le]
  have hmin : min r (min g b) = r := by rw [min_eq_left hgb.le, min_eq_left hrg.le]
  have hθ0 : (r - g)/(b - r) < 0 := div_neg_of_neg_of_pos (by linarith) hd
  have hθ1 : -1 < (r - g)/(b - r) := by
    rw [lt_div_iff hd]
    linarith
  have hH0 : 0 ≤ (4 + (r - g)/(b - r)) * 60 := by linarith
  have hH1 : (4 + (r - g)/(b - r)) * 60 < 360 := by linarith
  have hhls : srgb_to_hls (r, g, b)
      = ((4 + (r - g)/(b - r)) * 60, (b + r)/2 * 100,
         (if (b + r)/2 ≤ 1/2 then (b - r)/(b + r) else (b - r)/(2 - b - r)) * 100) := by
    simp only [srgb_to_hls, hmax, hmin]
    rw [if_neg hrb.ne', if_neg hgb.ne', if_neg hrb.ne', pymod_eq_self hH0 hH1]
  rw [hhls, hls_build h0r hrb h1b hH0 hH1,
    show (4 + (r - g)/(b - r)) * 60 / 360 = (r - g)/(b - r)/6 + 2/3 from by ring]
  have hch1 : hue_to_rgb r b ((r - g)/(b - r)/6 + 2/3 + 1/3) = r := by
    rw [show (r - g)/(b - r)/6 + 2/3 + 1/3 = (r - g)/(b - r)/6 + 1 from by ring]
    exact hue_eval_4 (by linarith) (by linarith)
  have hch2 : hue_to_rgb r b ((r - g)/(b - r)/6 + 2/3) = g := by
    rw [hue_eval_3 (by linarith) (by linarith)]
    field_simp
    ring
  have hch3 : hue_to_rgb r b ((r - g)/(b - r)/6 + 2/3 - 1/3) = b := by
    rw [show (r - g)/(b - r)/6 + 2/3 - 1/3 = (r - g)/(b - r)/6 + 1/3 from by ring]
    exact hue_eval_2 (by linarith) (by linarith)
  rw [hch1, hch2, hch3]

theorem hls_roundtrip_exact {r g b : ℚ} (h0r : 0 ≤ r) (h1r : r ≤ 1) (h0g : 0 ≤ g)
    (h1g : g ≤ 1) (h0b : 0 ≤ b) (h1b : b ≤ 1) (hrg : r ≠ g) (hgb : g ≠ b) (hrb : r ≠ b) :
    hls_to_srgb (srgb_to_hls (r, g, b)) = (r, g, b) := by
  rcases hrg.lt_or_lt with h1 | h1 <;> rcases hgb.lt_or_lt with h2 | h2 <;>
    rcases hrb.lt_or_lt with h3 | h3
  · exact rt_maxb_minr h0r h1b h1 h2
  · exact absurd (h1.trans h2) (by linarith)
  · exact rt_maxg_minr h0r h1g h3 h2
  · exact rt_maxg_minb h0b h1g h3 h1
  · exact rt_maxb_ming h0g h1b h1 h3
  · exact rt_maxr_ming h0g h1r h2 h3
  · exact absurd (h2.trans h1) (by linarith)
  · exact rt_maxr_minb h0b h1r h2 h1

/-- C5: for every RGB triple in `[0,1]^3` with pairwise distinct channels
(non-achromatic, away from every hue-branch boundary),
`hls_to_srgb (srgb_to_hls rgb)` equals `rgb` within 1e-6 per channel (in fact
exactly, in exact arithmetic). -/
theorem C5_hls_roundtrip {r g b : ℚ} (h0r : 0 ≤ r) (h1r : r ≤ 1) (h0g : 0 ≤ g)
    (h1g : g ≤ 1) (h0b : 0 ≤ b) (h1b : b ≤ 1) (hrg : r ≠ g) (hgb : g ≠ b) (hrb : r ≠ b) :
    |(hls_to_srgb (srgb_to_hls (r, g, b))).1 - r| ≤ 1/1000000
    ∧ |(hls_to_srgb (srgb_to_hls (r, g, b))).2.1 - g| ≤ 1/1000000
    ∧ |(hls_to_srgb (srgb_to_hls (r, g, b))).2.2 - b| ≤ 1/1000000 := by
  rw [hls_roundtrip_exact h0r h1r h0g h1g h0b h1b hrg hgb hrb]
  norm_num

/-- Witness for C5 at a concrete non-degenerate triple. -/
theorem C5_hls_roundtrip_witness :
    |(hls_to_srgb (srgb_to_hls (1/2, 1/4, 1/8))).1 - 1/2| ≤ 1/1000000
    ∧ |(hls_to_srgb (srgb_to_hls (1/2, 1/4, 1/8))).2.1 - 1/4| ≤ 1/1000000
    ∧ |(hls_to_srgb (srgb_to_hls (1/2, 1/4, 1/8))).2.2 - 1/8| ≤ 1/1000000 :=
  C5_hls_roundtrip (by norm_num) (by norm_num) (by norm_num) (by norm_num) (by norm_num)
    (by norm_num) (by norm_num) (by norm_num) (by norm_num)

end ColorLab

